import Mathlib

/-!
Verification of the OSS trend dashboard (`src/app/main.py`).

The Python service works on dict rows (`dict[str, Any]`).  We embed those
dicts as association lists from `String` to a small value universe `Val`
(integers, strings, booleans), with lookup/insertion semantics matching
Python dicts: `AList.get` finds the first binding, `AList.set` replaces the
first binding in place (keeping its position, as Python dict assignment
does) or appends a fresh binding at the end.

The two warehouse tables the analytical queries read are embedded as lists
of typed rows (`ActivityRow` for `int_repo_daily_activity`, `EventRow` for
`stg_github_events`); BigQuery SQL is interpreted over them with list
operations (filters for `WHERE`, `dedup` for `DISTINCT`, sums for `SUM`,
a stable descending sort for `ORDER BY ... DESC`).  Dates are day numbers
(`Int`); `CURRENT_DATE()` is a `today` parameter.  Daily event totals are
`Nat` (they are counts in the warehouse).

Functions that run warehouse queries return the query-call count alongside
their result so that "without issuing any query" claims are statable, and
the post-processing parts take the query outcome as an `Except` so that
query-failure behaviour is statable.
-/

/-- Values stored in a Python-dict row: int, str or bool. -/
inductive Val where
  | i (n : Int)
  | s (t : String)
  | b (v : Bool)
deriving DecidableEq, Repr

/-- First-binding lookup in an association list (Python `dict[k]` / `dict.get`). -/
def AList.get {β : Type} : List (String × β) → String → Option β
  | [], _ => none
  | p :: rest, k => if p.1 = k then some p.2 else AList.get rest k

/-- Python `dict[k] = v`: replace the first binding in place, else append. -/
def AList.set {β : Type} : List (String × β) → String → β → List (String × β)
  | [], k, v => [(k, v)]
  | p :: rest, k, v => if p.1 = k then (k, v) :: rest else p :: AList.set rest k v

/-- Python `k in dict`. -/
def AList.hasKey {β : Type} (l : List (String × β)) (k : String) : Bool :=
  (AList.get l k).isSome

/-- A Python dict row. -/
abbrev Row := List (String × Val)

/-- `int(r.get(k, d) or 0)` on rows whose values are ints (the only case the
service produces): the stored int when the key is bound, else `d`. -/
def Row.getI (r : Row) (k : String) (d : Int) : Int :=
  match AList.get r k with
  | some (Val.i n) => n
  | _ => d

/-- `str(r.get(k, d))` for string-valued keys. -/
def Row.getS (r : Row) (k : String) (d : String) : String :=
  match AList.get r k with
  | some (Val.s t) => t
  | _ => d

/-- `r.get(k, d)` for bool-valued keys. -/
def Row.getB (r : Row) (k : String) (d : Bool) : Bool :=
  match AList.get r k with
  | some (Val.b v) => v
  | _ => d

/-- Python `base.update(other)`. -/
def Row.update (base other : Row) : Row :=
  other.foldl (fun a p => AList.set a p.1 p.2) base

/-- `needle` occurs as a contiguous run inside `hay`. -/
def containsSub (needle hay : List Char) : Bool :=
  (List.range (hay.length + 1)).any fun i => needle.isPrefixOf (hay.drop i)

/-- `BLACKLIST_PATTERN = re.compile(r"(copilot|claude|codex)", re.IGNORECASE)`:
`.search` succeeds iff one of the three words occurs case-insensitively.
The SQL mirror `NOT REGEXP_CONTAINS(LOWER(contributor), r'(copilot|claude|codex)')`
has the same meaning, so one definition serves both. -/
def isBlacklisted (s : String) : Bool :=
  let hay := s.toList.map Char.toLower
  containsSub "copilot".toList hay || containsSub "claude".toList hay ||
    containsSub "codex".toList hay

/-- Character class `[A-Za-z0-9_.-]`. -/
def isRepoNameChar (c : Char) : Bool :=
  ('A' ≤ c && c ≤ 'Z') || ('a' ≤ c && c ≤ 'z') || c.isDigit ||
    c = '_' || c = '.' || c = '-'

/-- Split a character list on the slash character (Python `s.split("/")`
restricted to what the repo-name check needs). -/
def splitSlash : List Char → List (List Char)
  | [] => [[]]
  | c :: rest =>
    match splitSlash rest with
    | [] => [[]]
    | h :: t => if c = '/' then [] :: h :: t else (c :: h) :: t

/-- Body of `REPO_NAME = re.compile(r"^[A-Za-z0-9_.-]+/[A-Za-z0-9_.-]+$")`:
two nonempty runs of the class separated by one slash. -/
def repoNameCoreChars (cs : List Char) : Bool :=
  match splitSlash cs with
  | [a, b] => !a.isEmpty && !b.isEmpty && a.all isRepoNameChar &&
      b.all isRepoNameChar
  | _ => false

/-- `REPO_NAME.match(s)` is truthy.  Python's `$` also matches just before a
single trailing newline, which the second disjunct reproduces. -/
def repoNameMatch (s : String) : Bool :=
  repoNameCoreChars s.toList ||
    (s.toList.getLast? = some '\n' && repoNameCoreChars s.toList.dropLast)

/-- `value.replace("'", "''")` at character level: each single quote doubled. -/
def escQuotes : List Char → List Char
  | [] => []
  | c :: rest => if c = '\'' then '\'' :: '\'' :: escQuotes rest else c :: escQuotes rest

/-- `_sql_quote_identifier(value)`. -/
def _sql_quote_identifier (value : String) : String :=
  String.mk (escQuotes value.toList)

/-- `', '.join(parts)`. -/
def join_comma : List String → String
  | [] => ""
  | [p] => p
  | p :: rest => p ++ ", " ++ join_comma rest

/-- `_bq_string_array(values)`. -/
def _bq_string_array (values : List String) : String :=
  if values = [] then "CAST([] AS ARRAY<STRING>)"
  else "[" ++ join_comma
      (values.map fun v => "'" ++ _sql_quote_identifier v ++ "'") ++ "]"

/-- `_repo_in_clause(repo_names)`. -/
def _repo_in_clause (repo_names : List String) : String :=
  _bq_string_array repo_names

/-- `_repo_filter_expr(repo_names)`. -/
def _repo_filter_expr (repo_names : List String) : String :=
  if repo_names = [] then "FALSE"
  else
    let repo_list := _repo_in_clause repo_names
    if repo_list = "CAST([] AS ARRAY<STRING>)" then "FALSE"
    else "repo_name IN UNNEST(" ++ repo_list ++ ")"

/-- CPython `Py_UNICODE_ISSPACE`: the characters `int()` strips (and that
its Unicode-to-ASCII transform turns into a plain space): ASCII whitespace
0x09-0x0D and 0x20, the separators 0x1C-0x1F, NEL 0x85, NBSP 0xA0, Ogham
space 0x1680, the 0x2000-0x200A spaces, line/paragraph separators
0x2028/0x2029, 0x202F, 0x205F and ideographic space 0x3000. -/
def pyUniSpace (c : Char) : Bool :=
  let n := c.toNat
  (9 ≤ n && n ≤ 13) || (28 ≤ n && n ≤ 32) || n = 0x85 || n = 0xA0 ||
    n = 0x1680 || (0x2000 ≤ n && n ≤ 0x200A) || n = 0x2028 || n = 0x2029 ||
    n = 0x202F || n = 0x205F || n = 0x3000

/-- The Unicode 15.0 decimal-digit (Nd) ranges, as used by CPython 3.12's
`int()` via the Unicode decimal property: each range is a run of ten
digits 0-9 in order, so the digit value is the offset from the range
start.  (The mathematical alphanumeric block 1D7CE-1D7FF is five
consecutive runs.) -/
def pyDigitRanges : List (Nat × Nat) :=
  [(0x30, 0x39), (0x660, 0x669), (0x6F0, 0x6F9), (0x7C0, 0x7C9),
   (0x966, 0x96F), (0x9E6, 0x9EF), (0xA66, 0xA6F), (0xAE6, 0xAEF),
   (0xB66, 0xB6F), (0xBE6, 0xBEF), (0xC66, 0xC6F), (0xCE6, 0xCEF),
   (0xD66, 0xD6F), (0xDE6, 0xDEF), (0xE50, 0xE59), (0xED0, 0xED9),
   (0xF20, 0xF29), (0x1040, 0x1049), (0x1090, 0x1099), (0x17E0, 0x17E9),
   (0x1810, 0x1819), (0x1946, 0x194F), (0x19D0, 0x19D9), (0x1A80, 0x1A89),
   (0x1A90, 0x1A99), (0x1B50, 0x1B59), (0x1BB0, 0x1BB9), (0x1C40, 0x1C49),
   (0x1C50, 0x1C59), (0xA620, 0xA629), (0xA8D0, 0xA8D9), (0xA900, 0xA909),
   (0xA9D0, 0xA9D9), (0xA9F0, 0xA9F9), (0xAA50, 0xAA59), (0xABF0, 0xABF9),
   (0xFF10, 0xFF19), (0x104A0, 0x104A9), (0x10D30, 0x10D39),
   (0x11066, 0x1106F), (0x110F0, 0x110F9), (0x11136, 0x1113F),
   (0x111D0, 0x111D9), (0x112F0, 0x112F9), (0x11450, 0x11459),
   (0x114D0, 0x114D9), (0x11650, 0x11659), (0x116C0, 0x116C9),
   (0x11730, 0x11739), (0x118E0, 0x118E9), (0x11950, 0x11959),
   (0x11C50, 0x11C59), (0x11D50, 0x11D59), (0x11DA0, 0x11DA9),
   (0x11F50, 0x11F59), (0x16A60, 0x16A69), (0x16AC0, 0x16AC9),
   (0x16B50, 0x16B59), (0x1D7CE, 0x1D7D7), (0x1D7D8, 0x1D7E1),
   (0x1D7E2, 0x1D7EB), (0x1D7EC, 0x1D7F5), (0x1D7F6, 0x1D7FF),
   (0x1E140, 0x1E149), (0x1E2F0, 0x1E2F9), (0x1E4F0, 0x1E4F9),
   (0x1E950, 0x1E959), (0x1FBF0, 0x1FBF9)]

/-- The decimal value of a Unicode digit, `none` for non-digits. -/
def pyDigitVal? (c : Char) : Option Nat :=
  (pyDigitRanges.find? fun r => r.1 ≤ c.toNat && c.toNat ≤ r.2).map
    fun r => c.toNat - r.1

/-- CPython's `_PyUnicode_TransformDecimalAndSpaceToASCII`, the first phase
of `int(str)`: every `Py_UNICODE_ISSPACE` character becomes a plain space,
every Unicode decimal digit becomes the corresponding ASCII digit, other
ASCII characters pass through, and any other non-ASCII character makes the
whole parse fail (CPython substitutes a character that can never occur in
a valid integer literal). -/
def pyTransformDecimal : List Char → Option (List Char)
  | [] => some []
  | c :: rest =>
    match pyTransformDecimal rest with
    | none => none
    | some tail =>
      if pyUniSpace c then some (' ' :: tail)
      else
        match pyDigitVal? c with
        | some d => some (Char.ofNat (48 + d) :: tail)
        | none => if c.toNat < 128 then some (c :: tail) else none

/-- ASCII digit `0`-`9`. -/
def pyAsciiDigit (c : Char) : Bool := 48 ≤ c.toNat && c.toNat ≤ 57

/-- Continuation of the PEP 515 digit grammar `digit (["_"] digit)*` after
the first digit, accumulating the value: an underscore must be followed by
a digit, so `4_`, `1__4` and `_` alone all fail. -/
def pyDigitsVal : Nat → List Char → Option Nat
  | acc, [] => some acc
  | acc, '_' :: c :: rest =>
    if pyAsciiDigit c then pyDigitsVal (acc * 10 + (c.toNat - 48)) rest
    else none
  | acc, c :: rest =>
    if pyAsciiDigit c then pyDigitsVal (acc * 10 + (c.toNat - 48)) rest
    else none

/-- The PEP 515 digit part: must start with a digit. -/
def pyDigitsStart : List Char → Option Nat
  | [] => none
  | c :: rest =>
    if pyAsciiDigit c then pyDigitsVal (c.toNat - 48) rest else none

/-- Python `int(s)` on strings: CPython first transforms Unicode spaces and
decimal digits to ASCII (`pyTransformDecimal`), then parses
`[ws]* [sign] digit (["_"] digit)* [ws]*` - surrounding whitespace, an
optional sign and a digit run with PEP 515 single-underscore grouping (so
`int("1_4") = 14` and `int("١٤") = 14`); anything else raises (here:
`none`).  On all-ASCII input the transform is the identity on non-space
characters, so this is exactly `int()` there; on other input it follows
the Unicode 15.0 tables above. -/
def pyInt? (s : String) : Option Int :=
  match pyTransformDecimal s.toList with
  | none => none
  | some cs =>
    match ((cs.dropWhile (· = ' ')).reverse.dropWhile (· = ' ')).reverse with
    | '+' :: rest => (pyDigitsStart rest).map fun n => (n : Int)
    | '-' :: rest => (pyDigitsStart rest).map fun n => -(n : Int)
    | t => (pyDigitsStart t).map fun n => (n : Int)

/-- `_safe_int(raw, default, min_v, max_v)`; `raw or ""` folds a missing or
empty parameter into the unparsable empty string. -/
def _safe_int (raw : Option String) (default : Int) (min_v max_v : Option Int) : Int :=
  match pyInt? (raw.getD "") with
  | none => default
  | some v =>
    let v := match min_v with
      | some m => if v < m then m else v
      | none => v
    let v := match max_v with
      | some m => if m < v then m else v
      | none => v
    v

/-- `TREND_LIMIT` (env default). -/
def TREND_LIMIT : Nat := 120

/-- `TOP_TREND` (env default). -/
def TOP_TREND : Nat := 40

/-- `TREND_WINDOW_DAYS` (env default). -/
def TREND_WINDOW_DAYS : Int := 30

/-- `DEFAULT_WINDOW_DAYS = TREND_WINDOW_DAYS`. -/
def DEFAULT_WINDOW_DAYS : Int := TREND_WINDOW_DAYS

/-- `CACHE_TTL_SECONDS` (env default, 12h). -/
def CACHE_TTL_SECONDS : Int := 43200

/-- `_cache_get`: a hit within the TTL returns the stored value and leaves
the store alone; a read past the TTL pops the entry and reports a miss.
`now` stands for `datetime.utcnow()` in seconds; the store is the
`_DASHBOARD_CACHE` dict, key to `(timestamp, value)`. -/
def _cache_get {α : Type} (ttl now : Int) (cache : List (String × Int × α))
    (key : String) : Option α × List (String × Int × α) :=
  match AList.get cache key with
  | none => (none, cache)
  | some (exp, value) =>
    if ttl < now - exp then (none, cache.eraseP (fun e => e.1 == key))
    else (some value, cache)

/-- `_cache_set`. -/
def _cache_set {α : Type} (now : Int) (cache : List (String × Int × α))
    (key : String) (value : α) : List (String × Int × α) :=
  AList.set cache key (now, value)

/-- `_dashboard_cache_key`. -/
def _dashboard_cache_key (window_days : Int) (trend_mode : String)
    (include_network : Bool) (project_id : String) : String :=
  project_id ++ ":" ++ trend_mode ++ ":" ++ toString window_days ++ ":" ++
    (if include_network then "1" else "0")

/-- A row of `int_repo_daily_activity` (repo, date, daily event total). -/
structure ActivityRow where
  repo_name : String
  activity_date : Int
  total_events : Nat
deriving DecidableEq, Repr

/-- A row of `stg_github_events` (repo, date, nullable contributor). -/
structure EventRow where
  repo_name : String
  activity_date : Int
  contributor : Option String
deriving DecidableEq, Repr

/-- `SUM(COALESCE(total_events, 0)) ... WHERE activity_date BETWEEN lo AND hi
AND repo_name = n` over `int_repo_daily_activity` (0 when the group is empty,
matching the final `IFNULL(..., 0)`). -/
def sum_total_events (acts : List ActivityRow) (n : String) (lo hi : Int) : Nat :=
  ((acts.filter fun a =>
      a.repo_name == n && decide (lo ≤ a.activity_date) &&
        decide (a.activity_date ≤ hi)).map (·.total_events)).sum

/-- `COUNT(DISTINCT contributor)` over `stg_github_events` rows of repo `n`
in the window; SQL distinct-count skips NULLs.  No blacklist filter: the
first delta query (`attach_star_fork_deltas`) counts every contributor. -/
def distinct_contributors (evs : List EventRow) (n : String) (lo hi : Int) : Nat :=
  (((evs.filter fun e =>
        e.repo_name == n && decide (lo ≤ e.activity_date) &&
          decide (e.activity_date ≤ hi)).filterMap (·.contributor)).dedup).length

/-- `COUNT(DISTINCT contributor) ... AND contributor IS NOT NULL AND NOT
REGEXP_CONTAINS(LOWER(contributor), blacklist)`: the blacklist-filtered
distinct-contributor count of `attach_user_event_deltas`. -/
def distinct_user_contributors (evs : List EventRow) (n : String) (lo hi : Int) : Nat :=
  (((evs.filter fun e =>
        e.repo_name == n && decide (lo ≤ e.activity_date) &&
          decide (e.activity_date ≤ hi)).filterMap fun e =>
      match e.contributor with
      | some c => if isBlacklisted c then none else some c
      | none => none).dedup).length

/-- One result row of the `delta_sql` query in `attach_star_fork_deltas`
for target name `n`: the final SELECT left-joins the four window CTEs back
onto `target`, `IFNULL` turning missing groups into zeros.
`analysis_end = DATE_SUB(CURRENT_DATE(), INTERVAL 1 DAY)`. -/
def star_fork_query_row (acts : List ActivityRow) (evs : List EventRow)
    (n : String) (window_days today : Int) : Row :=
  let analysis_end := today - 1
  let curr_start := analysis_end - window_days
  let prev_start := analysis_end - 2 * window_days
  let prev_end := analysis_end - window_days
  let ce : Int := sum_total_events acts n curr_start analysis_end
  let pe : Int := sum_total_events acts n prev_start prev_end
  let cc : Int := distinct_contributors evs n curr_start analysis_end
  let pc : Int := distinct_contributors evs n prev_start prev_end
  [("repo_name", Val.s n), ("curr_events", Val.i ce), ("prev_events", Val.i pe),
   ("curr_contributors", Val.i cc), ("prev_contributors", Val.i pc),
   ("activity_delta_window", Val.i (ce - pe)),
   ("contributors_delta_window", Val.i (cc - pc))]

/-- Result rows of the `delta_sql` query: one row per target name. -/
def star_fork_delta_query (acts : List ActivityRow) (evs : List EventRow)
    (names : List String) (window_days today : Int) : List Row :=
  names.map fun n => star_fork_query_row acts evs n window_days today

/-- The per-row value of the `map_rows` dict comprehension of
`attach_star_fork_deltas` (lines 290-301). -/
def star_fork_map_val (r : Row) : Row :=
  let ce := Row.getI r "curr_events" 0
  let cc := Row.getI r "curr_contributors" 0
  let pe := Row.getI r "prev_events" 0
  let pc := Row.getI r "prev_contributors" 0
  [("stars_total", Val.i ce), ("forks_total", Val.i cc),
   ("activity_delta_window", Val.i (Row.getI r "activity_delta_window" 0)),
   ("contributors_delta_window", Val.i (Row.getI r "contributors_delta_window" 0)),
   ("stars_delta_window", Val.i (Row.getI r "activity_delta_window" 0)),
   ("forks_delta_window", Val.i (Row.getI r "contributors_delta_window" 0)),
   ("has_baseline", Val.b (decide (0 < ce + cc) || decide (0 < pe + pc))),
   ("has_exact_baseline", Val.b (decide (0 < ce + cc) && decide (0 < pe + pc)))]

/-- The `map_rows` dict comprehension (lines 289-303), keyed by `repo_name`. -/
def star_fork_map_rows (rows : List Row) : List (String × Row) :=
  rows.foldl (fun acc r =>
    AList.set acc (Row.getS r "repo_name" "") (star_fork_map_val r)) []

/-- The zero-filled `base` dict of `attach_star_fork_deltas` (lines 310-321). -/
def star_fork_base_row (r : Row) : Row :=
  [("repo_name", Val.s (Row.getS r "repo_name" "")),
   ("stars_total", Val.i (Row.getI r "stars_total" 0)),
   ("forks_total", Val.i (Row.getI r "forks_total" 0)),
   ("activity_delta_window", Val.i 0), ("contributors_delta_window", Val.i 0),
   ("stars_delta_window", Val.i 0), ("forks_delta_window", Val.i 0),
   ("last_activity_date", Val.s (Row.getS r "last_activity_date" "")),
   ("has_baseline", Val.b false), ("has_exact_baseline", Val.b false)]

/-- Lines 287-325 of `attach_star_fork_deltas`: the query call sits inside
`try/except Exception: map_rows = {}`, so a failed query leaves `map_rows`
empty and every input repo gets the zero-filled base row. -/
def attach_star_fork_deltas_post (qres : Except String (List Row))
    (repos : List Row) : List Row :=
  let map_rows := match qres with
    | Except.ok rows => star_fork_map_rows rows
    | Except.error _ => []
  repos.map fun r =>
    let base := star_fork_base_row r
    match AList.get map_rows (Row.getS r "repo_name" "") with
    | some m => Row.update base m
    | none => base

/-- `names = [str(r["repo_name"]) for r in repos if REPO_NAME.match(...)]`. -/
def valid_names (repos : List Row) : List String :=
  repos.filterMap fun r =>
    let n := Row.getS r "repo_name" ""
    if repoNameMatch n then some n else none

/-- `attach_star_fork_deltas(client, repos, window_days)`; the second
component counts warehouse queries issued. -/
def attach_star_fork_deltas (acts : List ActivityRow) (evs : List EventRow)
    (repos : List Row) (window_days today : Int) : List Row × Nat :=
  if repos = [] then ([], 0)
  else
    let names := valid_names repos
    if names = [] then (repos, 0)
    else
      (attach_star_fork_deltas_post
        (Except.ok (star_fork_delta_query acts evs names window_days today)) repos, 1)

/-- Result rows of the `event_sql` query in `attach_user_event_deltas`; the
contributor counts here are the blacklist-filtered "user-only" ones. -/
def user_event_delta_query (acts : List ActivityRow) (evs : List EventRow)
    (names : List String) (window_days today : Int) : List Row :=
  let analysis_end := today - 1
  let curr_start := analysis_end - window_days
  let prev_start := analysis_end - 2 * window_days
  let prev_end := analysis_end - window_days
  names.map fun n =>
    let ce : Int := sum_total_events acts n curr_start analysis_end
    let pe : Int := sum_total_events acts n prev_start prev_end
    let cc : Int := distinct_user_contributors evs n curr_start analysis_end
    let pc : Int := distinct_user_contributors evs n prev_start prev_end
    [("repo_name", Val.s n), ("curr_event_count", Val.i ce),
     ("prev_event_count", Val.i pe), ("curr_contributor_count", Val.i cc),
     ("prev_contributor_count", Val.i pc), ("event_delta", Val.i (ce - pe)),
     ("contributor_delta", Val.i (cc - pc))]

/-- The `row_map` dict comprehension of `attach_user_event_deltas`. -/
def user_event_map_rows (rows : List Row) : List (String × Row) :=
  rows.foldl (fun acc r =>
    AList.set acc (Row.getS r "repo_name" "")
      [("event_delta", Val.i (Row.getI r "event_delta" 0)),
       ("contributor_delta", Val.i (Row.getI r "contributor_delta" 0)),
       ("curr_event_count", Val.i (Row.getI r "curr_event_count" 0)),
       ("prev_event_count", Val.i (Row.getI r "prev_event_count" 0)),
       ("curr_contributor_count", Val.i (Row.getI r "curr_contributor_count" 0)),
       ("prev_contributor_count", Val.i (Row.getI r "prev_contributor_count" 0))])
    []

/-- The zero stats fallback of the `row_map.get(repo_name, {...})` call. -/
def user_event_zero_stats : Row :=
  [("event_delta", Val.i 0), ("contributor_delta", Val.i 0),
   ("curr_event_count", Val.i 0), ("prev_event_count", Val.i 0),
   ("curr_contributor_count", Val.i 0), ("prev_contributor_count", Val.i 0)]

/-- Lines 408-436 of `attach_user_event_deltas`: `run_query` is NOT wrapped
in try/except here, so a failed query propagates to the caller. -/
def attach_user_event_deltas_post (qres : Except String (List Row))
    (repos : List Row) : Except String (List Row) :=
  match qres with
  | Except.error e => Except.error e
  | Except.ok rows =>
    let row_map := user_event_map_rows rows
    Except.ok (repos.map fun r =>
      let repo_name := Row.getS r "repo_name" ""
      let stats := (AList.get row_map repo_name).getD user_event_zero_stats
      ("repo_name", Val.s repo_name) :: stats)

/-- `attach_user_event_deltas(client, repos, window_days)` with query count. -/
def attach_user_event_deltas (acts : List ActivityRow) (evs : List EventRow)
    (repos : List Row) (window_days today : Int) : Except String (List Row) × Nat :=
  if repos = [] then (Except.ok [], 0)
  else
    let names := valid_names repos
    if names = [] then (Except.ok [], 0)
    else
      let repo_list := _repo_in_clause names
      if repo_list = "[]" then (Except.ok [], 0)
      else
        (attach_user_event_deltas_post
          (Except.ok (user_event_delta_query acts evs names window_days today)) repos, 1)

/-- Lexicographic strict order on character lists. -/
def lexLtChars : List Char → List Char → Bool
  | [], [] => false
  | [], _ :: _ => true
  | _ :: _, [] => false
  | a :: as, b :: bs => if a < b then true else if a = b then lexLtChars as bs else false

/-- BigQuery `STRING <` (bytewise UTF-8 comparison, which coincides with
codepoint-lexicographic order). -/
def strLt (a b : String) : Bool := lexLtChars a.toList b.toList

/-- The `repo_contributors` CTE shared by `fetch_repo_relation_edges` and
`fetch_edge_chart_rows`: `SELECT DISTINCT repo_name, contributor` joined to
the target list, window `[today-1-window_days, today-1]`, contributor
non-NULL and not blacklisted. -/
def repo_contributors (evs : List EventRow) (names : List String)
    (window_days today : Int) : List (String × String) :=
  (evs.filterMap fun s =>
    match s.contributor with
    | some c =>
      if names.contains s.repo_name &&
          decide (today - 1 - window_days ≤ s.activity_date) &&
          decide (s.activity_date ≤ today - 1) && !isBlacklisted c
      then some (s.repo_name, c) else none
    | none => none).dedup

/-- The `(source_repo, target_repo)` group keys of the `paired` CTE: the
self-join of `repo_contributors` on equal contributor, constrained
`a.repo_name < b.repo_name`. -/
def paired_keys (rc : List (String × String)) : List (String × String) :=
  (((rc.product rc).filter fun p =>
      p.1.2 == p.2.2 && strLt p.1.1 p.2.1).map fun p => (p.1.1, p.2.1)).dedup

/-- `COUNT(DISTINCT a.contributor)` for the group `(s, t)` of `paired`:
contributors listed for `s` that are also listed for `t` (the list for a
fixed repo is duplicate-free because `repo_contributors` is DISTINCT). -/
def shared_contributor_count (rc : List (String × String)) (s t : String) : Nat :=
  (((rc.filter fun p => p.1 == s).map (·.2)).filter fun c => rc.contains (t, c)).length

/-- `ORDER BY shared_contributor_count DESC` as a relation on edge triples. -/
def edge_ge (a b : String × String × Nat) : Prop := b.2.2 ≤ a.2.2

instance : DecidableRel edge_ge := fun a b => Nat.decLe b.2.2 a.2.2

instance : IsTotal (String × String × Nat) edge_ge :=
  ⟨fun a b => (Nat.le_total b.2.2 a.2.2).imp id id⟩

instance : IsTrans (String × String × Nat) edge_ge :=
  ⟨fun _ _ _ h h2 => Nat.le_trans h2 h⟩

/-- The edge triples of `stg_sql` in `fetch_repo_relation_edges` before row
shaping: grouped pairs with their shared count, `WHERE count >= min`,
ordered by count descending, `LIMIT 400`. -/
def repo_relation_edge_triples (evs : List EventRow) (repo_names : List String)
    (window_days today : Int) (min_shared_repo_count : Int) :
    List (String × String × Nat) :=
  let rc := repo_contributors evs repo_names window_days today
  let paired := (paired_keys rc).map fun p =>
    (p.1, p.2, shared_contributor_count rc p.1 p.2)
  let kept := paired.filter fun e => decide (min_shared_repo_count ≤ (e.2.2 : Int))
  (kept.insertionSort edge_ge).take 400

/-- `fetch_repo_relation_edges(client, repo_names, window_days,
min_shared_repo_count)` with query count. -/
def fetch_repo_relation_edges (evs : List EventRow) (repo_names : List String)
    (window_days today : Int) (min_shared_repo_count : Int) : List Row × Nat :=
  if repo_names = [] then ([], 0)
  else
    let repo_list := _repo_in_clause repo_names
    if repo_list = "[]" then ([], 0)
    else
      ((repo_relation_edge_triples evs repo_names window_days today
          min_shared_repo_count).map fun e =>
        [("source_repo", Val.s e.1), ("target_repo", Val.s e.2.1),
         ("shared_contributor_count", Val.i e.2.2)], 1)

/-- `ORDER BY degree DESC` as a relation on `(repo_name, degree)` pairs. -/
def degree_ge (a b : String × Nat) : Prop := b.2 ≤ a.2

instance : DecidableRel degree_ge := fun a b => Nat.decLe b.2 a.2

instance : IsTotal (String × Nat) degree_ge :=
  ⟨fun a b => (Nat.le_total b.2 a.2).imp id id⟩

instance : IsTrans (String × Nat) degree_ge :=
  ⟨fun _ _ _ h h2 => Nat.le_trans h2 h⟩

/-- `fetch_edge_chart_rows(client, repo_names, window_days, top_n)`: the
same `paired` CTE exploded into (repo, count) occurrences (`UNION ALL` of
source and target sides), summed per repo, ordered by degree descending,
`LIMIT top_n`. -/
def fetch_edge_chart_rows (evs : List EventRow) (repo_names : List String)
    (window_days today : Int) (top_n : Nat) : List Row × Nat :=
  if repo_names = [] then ([], 0)
  else
    let repo_list := _repo_in_clause repo_names
    if repo_list = "[]" then ([], 0)
    else
      let rc := repo_contributors evs repo_names window_days today
      let paired := (paired_keys rc).map fun p =>
        (p.1, p.2, shared_contributor_count rc p.1 p.2)
      let exploded := (paired.map fun e => (e.1, e.2.2)) ++
        (paired.map fun e => (e.2.1, e.2.2))
      let degrees := ((exploded.map (·.1)).dedup).map fun n =>
        (n, ((exploded.filter fun p => p.1 == n).map (·.2)).sum)
      (((degrees.insertionSort degree_ge).take top_n).map fun d =>
        [("repo_name", Val.s d.1), ("degree", Val.i d.2)], 1)

/-- Python tuple `≤` on integer triples (lexicographic). -/
def tripleLe (x y : Int × Int × Int) : Prop :=
  x.1 < y.1 ∨ (x.1 = y.1 ∧ (x.2.1 < y.2.1 ∨ (x.2.1 = y.2.1 ∧ x.2.2 ≤ y.2.2)))

instance : DecidableRel tripleLe := fun x y =>
  inferInstanceAs (Decidable (x.1 < y.1 ∨ (x.1 = y.1 ∧
    (x.2.1 < y.2.1 ∨ (x.2.1 = y.2.1 ∧ x.2.2 ≤ y.2.2)))))

/-- Sort key of `build_trend_rows`: the Python tuple
`(x["delta_score"], x.get("stars_total", 0), x.get("forks_total", 0))`. -/
def trend_sort_key (r : Row) : Int × Int × Int :=
  (Row.getI r "delta_score" 0, Row.getI r "stars_total" 0,
    Row.getI r "forks_total" 0)

/-- `sorted(..., key=..., reverse=True)` as a total preorder: `a` may come
before `b` iff the key of `b` is at most the key of `a`.  Python's sort is
stable, and a stable sort for a total preorder is unique, so
`List.insertionSort` with this relation computes exactly Python's result. -/
def trend_ge (a b : Row) : Prop := tripleLe (trend_sort_key b) (trend_sort_key a)

instance : DecidableRel trend_ge := fun a b =>
  inferInstanceAs (Decidable (tripleLe (trend_sort_key b) (trend_sort_key a)))

instance : IsTotal Row trend_ge :=
  ⟨fun a b => by
    unfold trend_ge tripleLe
    omega⟩

instance : IsTrans Row trend_ge :=
  ⟨fun a b c h1 h2 => by
    unfold trend_ge tripleLe at *
    omega⟩

/-- The per-row normalisation step of `build_trend_rows` (lines 564-574):
copy the dict, re-derive the two deltas (falling back to the legacy keys),
mirror them into the legacy keys and attach `delta_score`. -/
def clean_trend_row (r : Row) : Row :=
  let activity_delta := Row.getI r "activity_delta_window"
    (Row.getI r "stars_delta_window" 0)
  let contributors_delta := Row.getI r "contributors_delta_window"
    (Row.getI r "forks_delta_window" 0)
  let row := AList.set r "activity_delta_window" (Val.i activity_delta)
  let row := AList.set row "contributors_delta_window" (Val.i contributors_delta)
  let row := AList.set row "stars_delta_window" (Val.i activity_delta)
  let row := AList.set row "forks_delta_window" (Val.i contributors_delta)
  AList.set row "delta_score" (Val.i (activity_delta + contributors_delta))

/-- `build_trend_rows(rows)`: clean, stable-sort descending by
`(delta_score, stars_total, forks_total)`, truncate to `TOP_TREND`; the
same truncated list is returned twice (table rows and chart rows). -/
def build_trend_rows (rows : List Row) : List Row × List Row :=
  let cleaned := rows.map clean_trend_row
  let sorted_rows := cleaned.insertionSort trend_ge
  (sorted_rows.take TOP_TREND, sorted_rows.take TOP_TREND)

/-- One repository summary from the GitHub search API payload. -/
structure SearchItem where
  full_name : String
  pushed_at : String
deriving DecidableEq, Repr

/-- `(it.get("pushed_at") or "")[:10]`. -/
def strTake (s : String) (n : Nat) : String := String.mk (s.toList.take n)

/-- The primary query list chosen by `mode` in `search_popular_repos`
(the pre-branch assignment in the source is dead: every branch overwrites
it). -/
def mode_queries (since : String) (mode : String) : List String :=
  if mode = "trending" then
    ["pushed:>=" ++ since ++ " stars:>=100 -is:archived",
     "pushed:>=" ++ since ++ " stars:>=40 forks:>=20 -is:archived",
     "pushed:>=" ++ since ++ " forks:>=50 -is:archived"]
  else if mode = "balanced" then
    ["pushed:>=" ++ since ++ " stars:>=40 -is:archived",
     "pushed:>=" ++ since ++ " forks:>=10 -is:archived"]
  else
    ["pushed:>=" ++ since ++ " stars:>=10 -is:archived",
     "pushed:>=" ++ since ++ " forks:>=2 -is:archived"]

/-- The progressively relaxed fallback query list. -/
def fallback_queries (since : String) : List String :=
  ["pushed:>=" ++ since ++ " stars:>=5 -is:archived",
   "pushed:>=" ++ since ++ " forks:>=1 -is:archived",
   "pushed:>=" ++ since ++ " -is:archived"]

/-- The inner `fetch(query_list)` closure: one API request per query string
(a failed request - `api q = none` - is skipped), merging items into a dict
keyed by name, first occurrence wins; malformed and blacklisted names are
dropped.  Returns `list(rows.values())` in insertion order. -/
def search_fetch (api : String → Option (List SearchItem))
    (query_list : List String) : List Row :=
  (query_list.foldl (fun rows q =>
    match api q with
    | none => rows
    | some items =>
      items.foldl (fun rows it =>
        let name := it.full_name
        if name = "" || !repoNameMatch name then rows
        else if isBlacklisted name then rows
        else if AList.hasKey rows name then rows
        else
          AList.set rows name
            [("repo_name", Val.s name), ("stars_total", Val.i 0),
             ("forks_total", Val.i 0),
             ("last_activity_date", Val.s (strTake it.pushed_at 10))]) rows)
    []).map (·.2)

/-- `search_popular_repos(window_days, mode)`.  The `since` string stands
for `(utcnow().date() - timedelta(days=window_days)).isoformat()`; `api` is
the GitHub search endpoint.  The second component counts API requests
issued: the function keeps no state between invocations, every call issues
one request per query (plus the fallback round when the primary result is
empty). -/
def search_popular_repos (api : String → Option (List SearchItem))
    (since : String) (mode : String) : List Row × Nat :=
  let queries := mode_queries since mode
  let results := search_fetch api queries
  if results = [] then
    ((search_fetch api (fallback_queries since)).take TREND_LIMIT,
      queries.length + (fallback_queries since).length)
  else (results.take TREND_LIMIT, queries.length)

/-- `allowed_window_days = {7, 14, 30}` in `index`. -/
def allowed_window_days : List Int := [7, 14, 30]

/-- The window selection of `index` (lines 601-603): clamp-parse the raw
`window` parameter, then fall back to `DEFAULT_WINDOW_DAYS` unless the
result is allow-listed.  A missing parameter first triggers a redirect with
`window=30`, which lands in the same fallback value. -/
def effective_window_days (raw : Option String) : Int :=
  let requested_window_days := _safe_int raw DEFAULT_WINDOW_DAYS (some 1) (some 365)
  if allowed_window_days.contains requested_window_days then requested_window_days
  else DEFAULT_WINDOW_DAYS

/-- Lines 694-695 of `index`: an exception escaping the trend pipeline is
degraded to the section error string `f"Trend query failed: {e}"`. -/
def trend_error_of (res : Except String (List Row)) : Option String :=
  match res with
  | Except.ok _ => none
  | Except.error e => some ("Trend query failed: " ++ e)

/-- Scanner for one BigQuery string literal body (after the opening quote):
`''` is an escaped quote, a lone quote closes the literal.  Returns the
decoded content and the remaining input. -/
def scanElem : List Char → Option (List Char × List Char)
  | [] => none
  | [c] => if c = '\'' then some ([], []) else none
  | c :: c2 :: rest =>
    if c = '\'' then
      if c2 = '\'' then (scanElem rest).map fun p => ('\'' :: p.1, p.2)
      else some ([], c2 :: rest)
    else (scanElem (c2 :: rest)).map fun p => (c :: p.1, p.2)

/-- Scanner for the quoted elements of an array literal body up to the
closing bracket, separated by `, ` (fuelled recursion). -/
def scanElems : Nat → List Char → Option (List (List Char))
  | 0, _ => none
  | fuel + 1, cs =>
    match cs with
    | [] => none
    | c :: rest =>
      if c = '\'' then
        match scanElem rest with
        | none => none
        | some (content, r) =>
          match r with
          | [] => none
          | [c2] => if c2 = ']' then some [content] else none
          | c2 :: c3 :: more =>
            if c2 = ',' then
              if c3 = ' ' then (scanElems fuel more).map (content :: ·)
              else none
            else none
      else none

/-- The character encoding of a nonempty value list as the body of the
array literal (everything after the opening bracket, closing bracket
included). -/
def encBody : List (List Char) → List Char
  | [] => [']']
  | [v] => '\'' :: (escQuotes v ++ '\'' :: [']'])
  | v :: vs => '\'' :: (escQuotes v ++ '\'' :: (',' :: ' ' :: encBody vs))

/-- Parse a nonempty BigQuery `['...', ...]` string-array literal back into
its element list; `none` on anything malformed. -/
def parse_bq_array (s : String) : Option (List String) :=
  match s.toList with
  | '[' :: rest => (scanElems rest.length rest).map (·.map String.mk)
  | _ => none

mutual

/-- Quotes occur only in adjacent pairs (i.e. the text cannot close a
surrounding single-quoted SQL literal early). -/
def quotesDoubled : List Char → Bool
  | [] => true
  | c :: rest => if c = '\'' then quoteClose rest else quotesDoubled rest

/-- After an opening quote, the very next character must be a quote again. -/
def quoteClose : List Char → Bool
  | [] => false
  | c :: rest => if c = '\'' then quotesDoubled rest else false

end

/-- The enriched output row of `attach_star_fork_deltas` for an input repo
whose (valid) name hits the query map: the zero-filled base dict updated
with the query-derived metrics. -/
def star_out_row (acts : List ActivityRow) (evs : List EventRow) (r : Row)
    (window_days today : Int) : Row :=
  Row.update (star_fork_base_row r)
    (star_fork_map_val
      (star_fork_query_row acts evs (Row.getS r "repo_name" "") window_days today))

/-- Repo `n` has zero recorded activity in both analysis windows: zero
summed events and zero distinct contributors, current and previous. -/
def star_zero_activity (acts : List ActivityRow) (evs : List EventRow)
    (n : String) (window_days today : Int) : Prop :=
  sum_total_events acts n (today - 1 - window_days) (today - 1) = 0 ∧
  sum_total_events acts n (today - 1 - 2 * window_days)
    (today - 1 - window_days) = 0 ∧
  distinct_contributors evs n (today - 1 - window_days) (today - 1) = 0 ∧
  distinct_contributors evs n (today - 1 - 2 * window_days)
    (today - 1 - window_days) = 0

/-- Repo `n` has nonzero recorded activity in the current window only. -/
def star_curr_only_activity (acts : List ActivityRow) (evs : List EventRow)
    (n : String) (window_days today : Int) : Prop :=
  0 < sum_total_events acts n (today - 1 - window_days) (today - 1) +
      distinct_contributors evs n (today - 1 - window_days) (today - 1) ∧
  sum_total_events acts n (today - 1 - 2 * window_days)
    (today - 1 - window_days) = 0 ∧
  distinct_contributors evs n (today - 1 - 2 * window_days)
    (today - 1 - window_days) = 0

/-- Drop every event row whose contributor is a blacklisted name (used to
state blacklist insensitivity: a query that filters blacklisted
contributors itself cannot see the difference). -/
def scrub_events (evs : List EventRow) : List EventRow :=
  evs.filter fun e =>
    match e.contributor with
    | some c => !isBlacklisted c
    | none => true

theorem AList.get_set_self {β : Type} (l : List (String × β)) (k : String) (v : β) :
    AList.get (AList.set l k v) k = some v := by
  induction l with
  | nil => simp [AList.set, AList.get]
  | cons p rest ih =>
    by_cases h : p.1 = k
    · simp [AList.set, AList.get, h]
    · simp [AList.set, AList.get, h, ih]

theorem AList.get_set_ne {β : Type} (l : List (String × β)) {k k' : String} (v : β)
    (h : k' ≠ k) : AList.get (AList.set l k v) k' = AList.get l k' := by
  induction l with
  | nil => simp [AList.set, AList.get, Ne.symm h]
  | cons p rest ih =>
    by_cases hp : p.1 = k
    · simp only [AList.set, if_pos hp, AList.get, hp]
      rw [if_neg (Ne.symm h), if_neg (Ne.symm h)]
    · simp [AList.set, AList.get, hp, ih]

theorem AList.set_eq_of_get {β : Type} {l : List (String × β)} {k : String} {v : β}
    (h : AList.get l k = some v) : AList.set l k v = l := by
  induction l with
  | nil => simp [AList.get] at h
  | cons p rest ih =>
    by_cases hp : p.1 = k
    · have hv : p.2 = v := by
        simp only [AList.get, if_pos hp] at h
        injection h
      simp only [AList.set, if_pos hp]
      rw [show ((k, v) : String × β) = p from by rw [← hp, ← hv]]
    · simp only [AList.get, if_neg hp] at h
      simp [AList.set, hp, ih h]

theorem AList.get_eq_none_of_not_mem {β : Type} {l : List (String × β)} {k : String}
    (h : k ∉ l.map Prod.fst) : AList.get l k = none := by
  induction l with
  | nil => rfl
  | cons p rest ih =>
    simp only [List.map_cons, List.mem_cons] at h
    push_neg at h
    have hp : ¬p.1 = k := fun he => h.1 he.symm
    simp [AList.get, hp, ih h.2]

theorem AList.get_eraseP_eq_none {β : Type} {l : List (String × β)} {k : String}
    (h : (l.map Prod.fst).Nodup) :
    AList.get (l.eraseP (fun e => e.1 == k)) k = none := by
  induction l with
  | nil => rfl
  | cons p rest ih =>
    simp only [List.map_cons, List.nodup_cons] at h
    by_cases hp : p.1 = k
    · rw [show (p :: rest).eraseP (fun e => e.1 == k) = rest by
        simp [List.eraseP_cons, hp]]
      exact AList.get_eq_none_of_not_mem (by rw [← hp]; exact h.1)
    · rw [show (p :: rest).eraseP (fun e => e.1 == k) =
          p :: rest.eraseP (fun e => e.1 == k) by simp [List.eraseP_cons, hp]]
      simp [AList.get, hp, ih h.2]

theorem AList.map_fst_set {β : Type} (l : List (String × β)) (k : String) (v : β) :
    (AList.set l k v).map Prod.fst =
      if k ∈ l.map Prod.fst then l.map Prod.fst else l.map Prod.fst ++ [k] := by
  induction l with
  | nil => simp [AList.set]
  | cons p rest ih =>
    by_cases hp : p.1 = k
    · simp [AList.set, hp]
    · have hp' : ¬k = p.1 := fun he => hp he.symm
      simp only [AList.set, if_neg hp, List.map_cons, ih, List.mem_cons]
      by_cases hk : k ∈ rest.map Prod.fst
      · simp [hk]
      · simp [hk, hp']

theorem AList.nodup_keys_set {β : Type} {l : List (String × β)} (k : String) (v : β)
    (h : (l.map Prod.fst).Nodup) : ((AList.set l k v).map Prod.fst).Nodup := by
  rw [AList.map_fst_set]
  by_cases hk : k ∈ l.map Prod.fst
  · simpa [hk] using h
  · rw [if_neg hk]
    exact h.append (List.nodup_singleton k)
      (fun a ha hb => hk (by simp at hb; exact hb ▸ ha))

theorem AList.get_foldl_set {α β : Type} (key : α → String) (val : α → β)
    (g : String → β) (l : List α) (hg : ∀ r ∈ l, val r = g (key r)) (x : String)
    (acc : List (String × β)) :
    AList.get (l.foldl (fun a r => AList.set a (key r) (val r)) acc) x =
      if x ∈ l.map key then some (g x) else AList.get acc x := by
  induction l generalizing acc with
  | nil => simp
  | cons r rest ih =>
    have hr : val r = g (key r) := hg r (List.mem_cons_self r rest)
    have hrest : ∀ s ∈ rest, val s = g (key s) := fun s hs => hg s (List.mem_cons_of_mem r hs)
    simp only [List.foldl_cons, List.map_cons, List.mem_cons]
    rw [ih hrest]
    by_cases hx : x ∈ rest.map key
    · simp [hx]
    · by_cases hxr : x = key r
      · simp [hx, hxr, hr, AList.get_set_self]
      · simp [hx, hxr, AList.get_set_ne _ _ hxr]

/-- C5: a dashboard-cache value stored at time `t` is returned unchanged by
a read at `t'` when `t' - t ≤ ttl`, and a read with `t' - t > ttl` reports
a miss and lazily evicts the entry from the store. -/
theorem c5_cache_ttl {α : Type} (ttl t t' : Int) (cache : List (String × Int × α))
    (key : String) (value : α) (hkeys : (cache.map Prod.fst).Nodup) :
    (t' - t ≤ ttl →
      _cache_get ttl t' (_cache_set t cache key value) key =
        (some value, _cache_set t cache key value)) ∧
    (ttl < t' - t →
      (_cache_get ttl t' (_cache_set t cache key value) key).1 = none ∧
      AList.get (_cache_get ttl t' (_cache_set t cache key value) key).2 key = none) := by
  have hget : AList.get (_cache_set t cache key value) key = some (t, value) :=
    AList.get_set_self cache key (t, value)
  have hnodup : ((_cache_set t cache key value).map Prod.fst).Nodup :=
    AList.nodup_keys_set key (t, value) hkeys
  constructor
  · intro hle
    simp [_cache_get, hget, not_lt.mpr hle]
  · intro hgt
    simp [_cache_get, hget, hgt, AList.get_eraseP_eq_none hnodup]

/-- C5 witness: a concrete store/read cycle inside and past the TTL. -/
theorem c5_cache_ttl_witness :
    _cache_get CACHE_TTL_SECONDS 100
        (_cache_set 0 ([] : List (String × Int × Row)) "k" []) "k" =
      (some [], _cache_set 0 [] "k" []) ∧
    (_cache_get CACHE_TTL_SECONDS 50000
        (_cache_set 0 ([] : List (String × Int × Row)) "k" []) "k").1 = none :=
  ⟨(c5_cache_ttl CACHE_TTL_SECONDS 0 100 [] "k" [] (by simp)).1 (by decide),
   ((c5_cache_ttl CACHE_TTL_SECONDS 0 50000 [] "k" [] (by simp)).2 (by decide)).1⟩

/-- C7: the handler uses the default effective window of 30 for every
requested `window` value outside the allow-list {7, 14, 30}.  First
conjunct: whenever `int()` (modelled by `pyInt?`, including PEP 515
underscore grouping and Unicode digits/whitespace) parses the raw
parameter to a value other than 7, 14 or 30, the effective window is 30.
Second conjunct: a non-numeric parameter falls back to 30; it is stated
for all-ASCII parameters, on which `pyInt?` coincides exactly with
CPython's `int()` (non-ASCII numeric spellings are covered by the first
conjunct through the Unicode digit tables).  Third and fourth conjuncts:
a missing parameter (the handler redirects with `window=30`) and the
spec's `window=99` example both yield 30. -/
theorem c7_window_fallback (raw : Option String) :
    (∀ v : Int, pyInt? (raw.getD "") = some v →
      v ≠ 7 ∧ v ≠ 14 ∧ v ≠ 30 → effective_window_days raw = 30) ∧
    (((raw.getD "").toList.all fun c => c.toNat < 128) = true →
      pyInt? (raw.getD "") = none → effective_window_days raw = 30) ∧
    effective_window_days none = 30 ∧
    effective_window_days (some "99") = 30 := by
  have contains_allowed_false : ∀ {x : Int}, x ≠ 7 → x ≠ 14 → x ≠ 30 →
      allowed_window_days.contains x = false := by
    intro x h7 h14 h30
    simp [allowed_window_days, List.contains, h7, h14, h30]
  refine ⟨?_, ?_, by decide, by decide⟩
  · intro v hv hne
    obtain ⟨h7, h14, h30⟩ := hne
    unfold effective_window_days _safe_int
    rw [hv]
    have hx : (if (365:Int) < (if v < 1 then 1 else v) then (365:Int)
        else if v < 1 then 1 else v) ≠ 7 ∧
        (if (365:Int) < (if v < 1 then 1 else v) then (365:Int)
        else if v < 1 then 1 else v) ≠ 14 ∧
        (if (365:Int) < (if v < 1 then 1 else v) then (365:Int)
        else if v < 1 then 1 else v) ≠ 30 := by
      split_ifs <;> omega
    simp only [DEFAULT_WINDOW_DAYS, TREND_WINDOW_DAYS]
    rw [contains_allowed_false hx.1 hx.2.1 hx.2.2]
    simp
  · intro _ hnone
    unfold effective_window_days _safe_int
    rw [hnone]
    simp [allowed_window_days, DEFAULT_WINDOW_DAYS, TREND_WINDOW_DAYS]

/-- C7 witness: `window=9_9` parses to the non-allow-listed 99 (PEP 515
grouping) and `window=abc` is non-numeric ASCII; both fall back to the
default window of 30. -/
theorem c7_window_fallback_witness :
    pyInt? "9_9" = some 99 ∧ effective_window_days (some "9_9") = 30 ∧
    pyInt? "abc" = none ∧ effective_window_days (some "abc") = 30 :=
  ⟨by decide,
   (c7_window_fallback (some "9_9")).1 99 (by decide) (by decide),
   by decide,
   (c7_window_fallback (some "abc")).2.1 (by decide) (by decide)⟩

/-- C8: with an empty candidate list, both delta-enrichment steps and both
network queries return an empty result and issue zero warehouse queries. -/
theorem c8_empty_candidates (acts : List ActivityRow) (evs : List EventRow)
    (window_days today min_shared : Int) (top_n : Nat) :
    attach_star_fork_deltas acts evs [] window_days today = ([], 0) ∧
    attach_user_event_deltas acts evs [] window_days today = (Except.ok [], 0) ∧
    fetch_repo_relation_edges evs [] window_days today min_shared = ([], 0) ∧
    fetch_edge_chart_rows evs [] window_days today top_n = ([], 0) :=
  ⟨rfl, rfl, rfl, rfl⟩

/-- C2 counterexample: `attach_star_fork_deltas` catches a failing delta
query (`except Exception: map_rows = {}`) instead of propagating it, and
returns a zero-filled row for the candidate - the exact behaviour the claim
rules out. -/
theorem c2_counterexample :
    attach_star_fork_deltas_post (Except.error "boom")
        [[("repo_name", Val.s "a/b")]] =
      [[("repo_name", Val.s "a/b"), ("stars_total", Val.i 0),
        ("forks_total", Val.i 0), ("activity_delta_window", Val.i 0),
        ("contributors_delta_window", Val.i 0), ("stars_delta_window", Val.i 0),
        ("forks_delta_window", Val.i 0), ("last_activity_date", Val.s ""),
        ("has_baseline", Val.b false), ("has_exact_baseline", Val.b false)]] := by
  decide

/-- C2 amended: only the user-event delta step propagates a query failure,
which the request handler degrades to `"Trend query failed: ..."`; the
star/fork delta step swallows the failure and emits the zero-filled base
row for every input repo. -/
theorem c2_error_propagation (repos : List Row) (e : String) :
    attach_user_event_deltas_post (Except.error e) repos = Except.error e ∧
    trend_error_of (attach_user_event_deltas_post (Except.error e) repos) =
      some ("Trend query failed: " ++ e) ∧
    attach_star_fork_deltas_post (Except.error e) repos =
      repos.map star_fork_base_row := by
  refine ⟨rfl, rfl, ?_⟩
  simp [attach_star_fork_deltas_post, AList.get]

/-- C3 counterexample: there is no search-results cache in the code; a
repeated invocation of `search_popular_repos` with identical mode and
window (hence identical `since`) issues its full complement of search-API
requests again - here 6 (3 primary + 3 fallback), not 0 as a cache hit
would require. -/
theorem c3_counterexample :
    (search_popular_repos (fun _ => none) "2025-01-01" "trending").2 = 6 ∧
    ((search_popular_repos (fun _ => none) "2025-01-01" "trending").2 = 0 → False) := by
  constructor
  · decide
  · intro h
    exact absurd h (by decide)

/-- C3 amended: candidate discovery results are only ever cached inside the
dashboard cache; `search_popular_repos` itself is stateless and every
invocation issues at least one (in fact at least two) external search-API
requests, whatever the mode, window and API behaviour. -/
theorem c3_every_call_hits_api (api : String → Option (List SearchItem))
    (since : String) (mode : String) :
    1 ≤ (search_popular_repos api since mode).2 := by
  unfold search_popular_repos mode_queries
  split_ifs <;> simp [fallback_queries] <;> split <;> simp

theorem filterMap_of_filter_eq {α β : Type} (q : α → Bool) (f : α → Option β)
    (h : ∀ a, q a = false → f a = none) :
    ∀ l : List α, (l.filter q).filterMap f = l.filterMap f := by
  intro l
  induction l with
  | nil => rfl
  | cons a l ih =>
    cases hq : q a
    · simp [List.filter_cons, hq, List.filterMap_cons, h a hq, ih]
    · simp [List.filter_cons, hq, List.filterMap_cons, ih]

theorem filter_comm_filterMap {α β : Type} (q p : α → Bool) (f : α → Option β)
    (h : ∀ a, q a = false → f a = none) (l : List α) :
    ((l.filter q).filter p).filterMap f = (l.filter p).filterMap f := by
  have hcomm : (l.filter q).filter p = (l.filter p).filter q := by
    simp [List.filter_filter, Bool.and_comm]
  rw [hcomm, filterMap_of_filter_eq q f h]

theorem distinct_user_contributors_scrub (evs : List EventRow) (n : String)
    (lo hi : Int) :
    distinct_user_contributors (scrub_events evs) n lo hi =
      distinct_user_contributors evs n lo hi := by
  unfold distinct_user_contributors scrub_events
  rw [filter_comm_filterMap]
  intro e he
  cases hc : e.contributor with
  | none => simp [hc] at he
  | some c =>
    simp only [hc, Bool.not_eq_false'] at he
    simp [hc, he]

theorem repo_contributors_scrub (evs : List EventRow) (names : List String)
    (window_days today : Int) :
    repo_contributors (scrub_events evs) names window_days today =
      repo_contributors evs names window_days today := by
  unfold repo_contributors scrub_events
  rw [filterMap_of_filter_eq]
  intro e he
  cases hc : e.contributor with
  | none => simp [hc] at he
  | some c =>
    simp only [hc, Bool.not_eq_false'] at he
    simp [hc, he]

/-- C1 counterexample: the first delta query (`attach_star_fork_deltas`,
the one that produces `contributors_delta_window` and the displayed
contributor totals) counts contributors WITHOUT any blacklist filter: a
single event by the blacklisted contributor "copilot" yields a distinct
contributor count of 1 and a contributor delta of 1 - so blacklisted names
are NOT excluded from every distinct-contributor count feeding the deltas. -/
theorem c1_counterexample :
    isBlacklisted "copilot" = true ∧
    Row.getI ((attach_star_fork_deltas []
        [⟨"a/a", 5, some "copilot"⟩]
        [[("repo_name", Val.s "a/a")]] 7 10).1.headD [])
      "contributors_delta_window" 0 = 1 ∧
    Row.getI ((attach_star_fork_deltas []
        [⟨"a/a", 5, some "copilot"⟩]
        [[("repo_name", Val.s "a/a")]] 7 10).1.headD [])
      "forks_total" 0 = 1 := by
  decide

/-- C1 amended: the blacklist does filter every distinct-contributor count
of the user-only delta query and of both network queries - deleting all
blacklisted-contributor events from the staged events table changes none of
their results.  (It does not filter the `attach_star_fork_deltas`
contributor counts; see the counterexample.) -/
theorem c1_blacklist_user_and_edges (acts : List ActivityRow)
    (evs : List EventRow) (repos : List Row) (names : List String)
    (window_days today min_shared : Int) (top_n : Nat) :
    attach_user_event_deltas acts (scrub_events evs) repos window_days today =
      attach_user_event_deltas acts evs repos window_days today ∧
    fetch_repo_relation_edges (scrub_events evs) names window_days today
        min_shared =
      fetch_repo_relation_edges evs names window_days today min_shared ∧
    fetch_edge_chart_rows (scrub_events evs) names window_days today top_n =
      fetch_edge_chart_rows evs names window_days today top_n := by
  refine ⟨?_, ?_, ?_⟩
  · unfold attach_user_event_deltas user_event_delta_query
    simp only [distinct_user_contributors_scrub]
  · unfold fetch_repo_relation_edges repo_relation_edge_triples
    simp only [repo_contributors_scrub]
  · unfold fetch_edge_chart_rows
    simp only [repo_contributors_scrub]

theorem mem_paired_keys_lt {rc : List (String × String)} {p : String × String}
    (hp : p ∈ paired_keys rc) : strLt p.1 p.2 = true := by
  unfold paired_keys at hp
  rw [List.mem_dedup] at hp
  obtain ⟨q, hq, hqe⟩ := List.mem_map.mp hp
  have hpred := (List.mem_filter.mp hq).2
  simp only [Bool.and_eq_true] at hpred
  rw [← hqe]
  exact hpred.2

theorem edge_triples_facts (evs : List EventRow) (names : List String)
    (window_days today min_shared : Int) :
    (∀ e ∈ repo_relation_edge_triples evs names window_days today min_shared,
      strLt e.1 e.2.1 = true ∧ min_shared ≤ (e.2.2 : Int)) ∧
    (repo_relation_edge_triples evs names window_days today min_shared).Pairwise
      edge_ge ∧
    (repo_relation_edge_triples evs names window_days today min_shared).length
      ≤ 400 := by
  unfold repo_relation_edge_triples
  refine ⟨?_, ?_, ?_⟩
  · intro e he
    have hkept := List.mem_insertionSort edge_ge |>.mp (List.mem_of_mem_take he)
    have hfil := List.mem_filter.mp hkept
    obtain ⟨p, hps, hpe⟩ := List.mem_map.mp hfil.1
    constructor
    · rw [← hpe]
      exact mem_paired_keys_lt hps
    · have := hfil.2
      simpa using this
  · exact List.Pairwise.sublist (List.take_sublist _ _)
      (List.sorted_insertionSort edge_ge _)
  · exact List.length_take_le _ _

/-- C6: every edge emitted by the network builder has lexicographically
ordered endpoints (`source_repo < target_repo` in BigQuery string order)
and a shared-contributor count at least the threshold; the list is ordered
by that count descending and holds at most 400 edges. -/
theorem c6_edge_invariants (evs : List EventRow) (repo_names : List String)
    (window_days today min_shared : Int) :
    (∀ r ∈ (fetch_repo_relation_edges evs repo_names window_days today
        min_shared).1,
      strLt (Row.getS r "source_repo" "") (Row.getS r "target_repo" "") = true ∧
      min_shared ≤ Row.getI r "shared_contributor_count" 0) ∧
    (fetch_repo_relation_edges evs repo_names window_days today
        min_shared).1.Pairwise
      (fun a b => Row.getI b "shared_contributor_count" 0 ≤
        Row.getI a "shared_contributor_count" 0) ∧
    (fetch_repo_relation_edges evs repo_names window_days today
        min_shared).1.length ≤ 400 := by
  obtain ⟨hmem, hsort, hlen⟩ :=
    edge_triples_facts evs repo_names window_days today min_shared
  have hmain :
      (∀ r ∈ (repo_relation_edge_triples evs repo_names window_days today
          min_shared).map (fun e =>
          ([("source_repo", Val.s e.1), ("target_repo", Val.s e.2.1),
            ("shared_contributor_count", Val.i e.2.2)] : Row)),
        strLt (Row.getS r "source_repo" "") (Row.getS r "target_repo" "")
          = true ∧
        min_shared ≤ Row.getI r "shared_contributor_count" 0) ∧
      ((repo_relation_edge_triples evs repo_names window_days today
          min_shared).map (fun e =>
          ([("source_repo", Val.s e.1), ("target_repo", Val.s e.2.1),
            ("shared_contributor_count", Val.i e.2.2)] : Row))).Pairwise
        (fun a b => Row.getI b "shared_contributor_count" 0 ≤
          Row.getI a "shared_contributor_count" 0) ∧
      ((repo_relation_edge_triples evs repo_names window_days today
          min_shared).map (fun e =>
          ([("source_repo", Val.s e.1), ("target_repo", Val.s e.2.1),
            ("shared_contributor_count", Val.i e.2.2)] : Row))).length ≤ 400 := by
    refine ⟨?_, ?_, ?_⟩
    · intro r hr
      obtain ⟨e, he, hre⟩ := List.mem_map.mp hr
      obtain ⟨hlt, hcount⟩ := hmem e he
      rw [← hre]
      exact ⟨hlt, hcount⟩
    · exact List.Pairwise.map _
        (fun a b (hab : edge_ge a b) => Int.ofNat_le.mpr hab) hsort
    · simpa using hlen
  unfold fetch_repo_relation_edges
  by_cases h1 : repo_names = []
  · rw [if_pos h1]
    simp
  · rw [if_neg h1]
    by_cases h2 : _repo_in_clause repo_names = "[]"
    · rw [if_pos h2]
      simp
    · rw [if_neg h2]
      exact hmain

/-- C6 witness: a two-repo warehouse sharing the contributor "alice"
produces the single edge `("a/a", "b/b", 1)`, for which the theorem's
per-edge facts are discharged. -/
theorem c6_edge_invariants_witness :
    strLt (Row.getS ([("source_repo", Val.s "a/a"), ("target_repo", Val.s "b/b"),
        ("shared_contributor_count", Val.i 1)] : Row) "source_repo" "")
      (Row.getS ([("source_repo", Val.s "a/a"), ("target_repo", Val.s "b/b"),
        ("shared_contributor_count", Val.i 1)] : Row) "target_repo" "") = true ∧
    (1 : Int) ≤ Row.getI ([("source_repo", Val.s "a/a"),
        ("target_repo", Val.s "b/b"),
        ("shared_contributor_count", Val.i 1)] : Row)
      "shared_contributor_count" 0 :=
  (c6_edge_invariants
      [⟨"a/a", 5, some "alice"⟩, ⟨"b/b", 5, some "alice"⟩]
      ["a/a", "b/b"] 7 10 1).1
    [("source_repo", Val.s "a/a"), ("target_repo", Val.s "b/b"),
      ("shared_contributor_count", Val.i 1)] (by decide)

theorem clean_trend_row_gets (x : Row) :
    AList.get (clean_trend_row x) "activity_delta_window" =
      some (Val.i (Row.getI x "activity_delta_window"
        (Row.getI x "stars_delta_window" 0))) ∧
    AList.get (clean_trend_row x) "contributors_delta_window" =
      some (Val.i (Row.getI x "contributors_delta_window"
        (Row.getI x "forks_delta_window" 0))) ∧
    AList.get (clean_trend_row x) "stars_delta_window" =
      some (Val.i (Row.getI x "activity_delta_window"
        (Row.getI x "stars_delta_window" 0))) ∧
    AList.get (clean_trend_row x) "forks_delta_window" =
      some (Val.i (Row.getI x "contributors_delta_window"
        (Row.getI x "forks_delta_window" 0))) ∧
    AList.get (clean_trend_row x) "delta_score" =
      some (Val.i (Row.getI x "activity_delta_window"
          (Row.getI x "stars_delta_window" 0) +
        Row.getI x "contributors_delta_window"
          (Row.getI x "forks_delta_window" 0))) := by
  unfold clean_trend_row
  refine ⟨?_, ?_, ?_, ?_, ?_⟩
  · rw [AList.get_set_ne _ _ (by decide), AList.get_set_ne _ _ (by decide),
      AList.get_set_ne _ _ (by decide), AList.get_set_ne _ _ (by decide),
      AList.get_set_self]
  · rw [AList.get_set_ne _ _ (by decide), AList.get_set_ne _ _ (by decide),
      AList.get_set_ne _ _ (by decide), AList.get_set_self]
  · rw [AList.get_set_ne _ _ (by decide), AList.get_set_ne _ _ (by decide),
      AList.get_set_self]
  · rw [AList.get_set_ne _ _ (by decide), AList.get_set_self]
  · rw [AList.get_set_self]

theorem clean_trend_row_idem (x : Row) :
    clean_trend_row (clean_trend_row x) = clean_trend_row x := by
  obtain ⟨hA, hC, hSD, hFD, hDS⟩ := clean_trend_row_gets x
  have ha : Row.getI (clean_trend_row x) "activity_delta_window"
      (Row.getI (clean_trend_row x) "stars_delta_window" 0) =
      Row.getI x "activity_delta_window" (Row.getI x "stars_delta_window" 0) := by
    unfold Row.getI
    rw [hA]
    rfl
  have hc : Row.getI (clean_trend_row x) "contributors_delta_window"
      (Row.getI (clean_trend_row x) "forks_delta_window" 0) =
      Row.getI x "contributors_delta_window"
        (Row.getI x "forks_delta_window" 0) := by
    unfold Row.getI
    rw [hC]
    rfl
  conv_lhs => rw [clean_trend_row]
  rw [ha, hc, AList.set_eq_of_get hA, AList.set_eq_of_get hC,
    AList.set_eq_of_get hSD, AList.set_eq_of_get hFD, AList.set_eq_of_get hDS]

/-- C4: ranking assigns `delta_score = activity_delta_window +
contributors_delta_window` to every emitted row, returns the rows sorted
descending by the tuple `(delta_score, stars_total, forks_total)` (stable:
`trend_ge` is the total preorder of Python's `sorted(..., reverse=True)`),
truncated to `TOP_TREND` entries; the chart copy equals the table copy, and
re-running ranking on its own output reproduces it exactly (stable
tie-break idempotence).  The embedding is a pure function, as the source
performs no I/O and builds fresh dicts. -/
theorem c4_ranking (rows : List Row) :
    (∀ r ∈ (build_trend_rows rows).1,
      Row.getI r "delta_score" 0 =
        Row.getI r "activity_delta_window" 0 +
          Row.getI r "contributors_delta_window" 0) ∧
    (build_trend_rows rows).1.Pairwise trend_ge ∧
    (build_trend_rows rows).1.length = min TOP_TREND rows.length ∧
    (build_trend_rows rows).2 = (build_trend_rows rows).1 ∧
    build_trend_rows (build_trend_rows rows).1 =
      ((build_trend_rows rows).1, (build_trend_rows rows).1) := by
  have hmem : ∀ r ∈ (build_trend_rows rows).1, ∃ x, clean_trend_row x = r := by
    intro r hr
    unfold build_trend_rows at hr
    have := List.mem_insertionSort trend_ge |>.mp (List.mem_of_mem_take hr)
    obtain ⟨x, _, hx⟩ := List.mem_map.mp this
    exact ⟨x, hx⟩
  have hpair : (build_trend_rows rows).1.Pairwise trend_ge := by
    unfold build_trend_rows
    exact List.Pairwise.sublist (List.take_sublist _ _)
      (List.sorted_insertionSort trend_ge _)
  refine ⟨?_, hpair, ?_, rfl, ?_⟩
  · intro r hr
    obtain ⟨x, hx⟩ := hmem r hr
    obtain ⟨hA, hC, _, _, hDS⟩ := clean_trend_row_gets x
    rw [← hx]
    unfold Row.getI
    rw [hA, hC, hDS]
  · unfold build_trend_rows
    rw [List.length_take, (List.perm_insertionSort trend_ge _).length_eq,
      List.length_map]
  · have hid : (build_trend_rows rows).1.map clean_trend_row =
        (build_trend_rows rows).1 := by
      refine (List.map_congr_left ?_).trans (List.map_id _)
      intro r hr
      obtain ⟨x, hx⟩ := hmem r hr
      simp only [id_eq]
      rw [← hx, clean_trend_row_idem]
    have hlen : (build_trend_rows rows).1.length ≤ TOP_TREND := by
      unfold build_trend_rows
      rw [List.length_take, (List.perm_insertionSort trend_ge _).length_eq,
        List.length_map]
      exact Nat.min_le_left _ _
    conv_lhs => rw [build_trend_rows]
    rw [hid, List.Sorted.insertionSort_eq hpair,
      List.take_of_length_le hlen]

/-- C4 witness: the spec's own example - a row with `stars_total = 100`
but `delta_score = 50` against a row with `stars_total = 10` and
`delta_score = 80`; the score decomposition holds for the winning head row
of the ranked output. -/
theorem c4_ranking_witness :
    Row.getI ((build_trend_rows
        [[("repo_name", Val.s "x/a"), ("stars_total", Val.i 100),
          ("forks_total", Val.i 0), ("activity_delta_window", Val.i 25),
          ("contributors_delta_window", Val.i 25)],
         [("repo_name", Val.s "y/b"), ("stars_total", Val.i 10),
          ("forks_total", Val.i 0), ("activity_delta_window", Val.i 40),
          ("contributors_delta_window", Val.i 40)]]).1.headD [])
      "delta_score" 0 =
      Row.getI ((build_trend_rows
        [[("repo_name", Val.s "x/a"), ("stars_total", Val.i 100),
          ("forks_total", Val.i 0), ("activity_delta_window", Val.i 25),
          ("contributors_delta_window", Val.i 25)],
         [("repo_name", Val.s "y/b"), ("stars_total", Val.i 10),
          ("forks_total", Val.i 0), ("activity_delta_window", Val.i 40),
          ("contributors_delta_window", Val.i 40)]]).1.headD [])
        "activity_delta_window" 0 +
      Row.getI ((build_trend_rows
        [[("repo_name", Val.s "x/a"), ("stars_total", Val.i 100),
          ("forks_total", Val.i 0), ("activity_delta_window", Val.i 25),
          ("contributors_delta_window", Val.i 25)],
         [("repo_name", Val.s "y/b"), ("stars_total", Val.i 10),
          ("forks_total", Val.i 0), ("activity_delta_window", Val.i 40),
          ("contributors_delta_window", Val.i 40)]]).1.headD [])
        "contributors_delta_window" 0 :=
  (c4_ranking
      [[("repo_name", Val.s "x/a"), ("stars_total", Val.i 100),
        ("forks_total", Val.i 0), ("activity_delta_window", Val.i 25),
        ("contributors_delta_window", Val.i 25)],
       [("repo_name", Val.s "y/b"), ("stars_total", Val.i 10),
        ("forks_total", Val.i 0), ("activity_delta_window", Val.i 40),
        ("contributors_delta_window", Val.i 40)]]).1 _ (by decide)

theorem valid_names_eq_map : ∀ (repos : List Row),
    (∀ r ∈ repos, repoNameMatch (Row.getS r "repo_name" "") = true) →
    valid_names repos = repos.map fun r => Row.getS r "repo_name" ""
  | [], _ => rfl
  | r :: rest, h => by
    have hr := h r (List.mem_cons_self r rest)
    have ih := valid_names_eq_map rest
      (fun s hs => h s (List.mem_cons_of_mem r hs))
    unfold valid_names at ih ⊢
    simp only [List.filterMap_cons, hr, if_true, List.map_cons]
    rw [ih]

theorem star_fork_map_rows_get (acts : List ActivityRow) (evs : List EventRow)
    (names : List String) (window_days today : Int) {n : String}
    (hn : n ∈ names) :
    AList.get (star_fork_map_rows
        (star_fork_delta_query acts evs names window_days today)) n =
      some (star_fork_map_val
        (star_fork_query_row acts evs n window_days today)) := by
  unfold star_fork_map_rows star_fork_delta_query
  have h := AList.get_foldl_set (fun r : Row => Row.getS r "repo_name" "")
    star_fork_map_val
    (fun m => star_fork_map_val (star_fork_query_row acts evs m window_days today))
    (names.map fun m => star_fork_query_row acts evs m window_days today)
    (by
      intro r hrr
      obtain ⟨m, _, hm⟩ := List.mem_map.mp hrr
      rw [← hm]
      rfl)
    n []
  have hmaps : ((names.map fun m =>
      star_fork_query_row acts evs m window_days today).map
      fun r : Row => Row.getS r "repo_name" "") = names := by
    rw [List.map_map]
    refine (List.map_congr_left ?_).trans (List.map_id _)
    intro m _
    rfl
  rw [hmaps, if_pos hn] at h
  exact h

theorem attach_star_fork_post_map (acts : List ActivityRow)
    (evs : List EventRow) (repos : List Row) (window_days today : Int)
    (hvalid : ∀ r ∈ repos, repoNameMatch (Row.getS r "repo_name" "") = true) :
    attach_star_fork_deltas_post
        (Except.ok (star_fork_delta_query acts evs (valid_names repos)
          window_days today)) repos =
      repos.map fun r => star_out_row acts evs r window_days today := by
  unfold attach_star_fork_deltas_post
  apply List.map_congr_left
  intro r hr
  have hn : Row.getS r "repo_name" "" ∈ valid_names repos := by
    rw [valid_names_eq_map repos hvalid]
    exact List.mem_map_of_mem _ hr
  rw [star_fork_map_rows_get acts evs _ window_days today hn]
  rfl

theorem star_out_row_reads (acts : List ActivityRow) (evs : List EventRow)
    (r : Row) (window_days today : Int) :
    Row.getS (star_out_row acts evs r window_days today) "repo_name" "" =
      Row.getS r "repo_name" "" ∧
    Row.getI (star_out_row acts evs r window_days today) "stars_total" 0 =
      (sum_total_events acts (Row.getS r "repo_name" "")
        (today - 1 - window_days) (today - 1) : Int) ∧
    Row.getI (star_out_row acts evs r window_days today) "forks_total" 0 =
      (distinct_contributors evs (Row.getS r "repo_name" "")
        (today - 1 - window_days) (today - 1) : Int) ∧
    Row.getI (star_out_row acts evs r window_days today)
        "activity_delta_window" 0 =
      (sum_total_events acts (Row.getS r "repo_name" "")
        (today - 1 - window_days) (today - 1) : Int) -
      (sum_total_events acts (Row.getS r "repo_name" "")
        (today - 1 - 2 * window_days) (today - 1 - window_days) : Int) ∧
    Row.getI (star_out_row acts evs r window_days today)
        "contributors_delta_window" 0 =
      (distinct_contributors evs (Row.getS r "repo_name" "")
        (today - 1 - window_days) (today - 1) : Int) -
      (distinct_contributors evs (Row.getS r "repo_name" "")
        (today - 1 - 2 * window_days) (today - 1 - window_days) : Int) ∧
    Row.getB (star_out_row acts evs r window_days today)
        "has_baseline" false =
      (decide (0 < (sum_total_events acts (Row.getS r "repo_name" "")
          (today - 1 - window_days) (today - 1) : Int) +
        (distinct_contributors evs (Row.getS r "repo_name" "")
          (today - 1 - window_days) (today - 1) : Int)) ||
       decide (0 < (sum_total_events acts (Row.getS r "repo_name" "")
          (today - 1 - 2 * window_days) (today - 1 - window_days) : Int) +
        (distinct_contributors evs (Row.getS r "repo_name" "")
          (today - 1 - 2 * window_days) (today - 1 - window_days) : Int))) ∧
    Row.getB (star_out_row acts evs r window_days today)
        "has_exact_baseline" false =
      (decide (0 < (sum_total_events acts (Row.getS r "repo_name" "")
          (today - 1 - window_days) (today - 1) : Int) +
        (distinct_contributors evs (Row.getS r "repo_name" "")
          (today - 1 - window_days) (today - 1) : Int)) &&
       decide (0 < (sum_total_events acts (Row.getS r "repo_name" "")
          (today - 1 - 2 * window_days) (today - 1 - window_days) : Int) +
        (distinct_contributors evs (Row.getS r "repo_name" "")
          (today - 1 - 2 * window_days) (today - 1 - window_days) : Int))) :=
  ⟨rfl, rfl, rfl, rfl, rfl, rfl, rfl⟩

/-- C9: for a list of candidate repositories (candidates carry
pattern-valid names by construction of Candidate Discovery),
`attach_star_fork_deltas` returns exactly one metrics row per input row in
input order (`Forall₂` forces equal length and positional correspondence);
a repository with zero recorded activity in both windows gets zero counts,
zero deltas and both baseline flags `False`; one with nonzero activity in
the current window only gets `has_baseline = True` and
`has_exact_baseline = False`. -/
theorem c9_metrics_rows (acts : List ActivityRow) (evs : List EventRow)
    (repos : List Row) (window_days today : Int)
    (hvalid : ∀ r ∈ repos, repoNameMatch (Row.getS r "repo_name" "") = true) :
    List.Forall₂ (fun r o =>
      Row.getS o "repo_name" "" = Row.getS r "repo_name" "" ∧
      (star_zero_activity acts evs (Row.getS r "repo_name" "")
          window_days today →
        Row.getI o "stars_total" 0 = 0 ∧ Row.getI o "forks_total" 0 = 0 ∧
        Row.getI o "activity_delta_window" 0 = 0 ∧
        Row.getI o "contributors_delta_window" 0 = 0 ∧
        Row.getB o "has_baseline" false = false ∧
        Row.getB o "has_exact_baseline" false = false) ∧
      (star_curr_only_activity acts evs (Row.getS r "repo_name" "")
          window_days today →
        Row.getB o "has_baseline" false = true ∧
        Row.getB o "has_exact_baseline" false = false))
      repos (attach_star_fork_deltas acts evs repos window_days today).1 := by
  by_cases hrep : repos = []
  · subst hrep
    exact List.Forall₂.nil
  · have hnames := valid_names_eq_map repos hvalid
    have hne : valid_names repos ≠ [] := by
      rw [hnames]
      cases repos with
      | nil => exact absurd rfl hrep
      | cons a l => simp
    unfold attach_star_fork_deltas
    rw [if_neg hrep, if_neg hne]
    rw [show ((attach_star_fork_deltas_post
        (Except.ok (star_fork_delta_query acts evs (valid_names repos)
          window_days today)) repos, 1) :
        List Row × Nat).1 =
      attach_star_fork_deltas_post
        (Except.ok (star_fork_delta_query acts evs (valid_names repos)
          window_days today)) repos from rfl]
    rw [attach_star_fork_post_map acts evs repos window_days today hvalid]
    rw [List.forall₂_map_right_iff, List.forall₂_same]
    intro r hr
    obtain ⟨hs, h1, h2, h3, h4, h5, h6⟩ :=
      star_out_row_reads acts evs r window_days today
    refine ⟨hs, ?_, ?_⟩
    · intro hz
      obtain ⟨z1, z2, z3, z4⟩ := hz
      simp only [z1, z2, z3, z4, Nat.cast_zero] at h1 h2 h3 h4 h5 h6
      norm_num at h3 h4 h5 h6
      exact ⟨h1, h2, h3, h4, h5, h6⟩
    · intro hco
      obtain ⟨c1, c2, c3⟩ := hco
      simp only [c2, c3, Nat.cast_zero] at h5 h6
      norm_num at h5 h6
      have hcast : (0 : Int) <
          (sum_total_events acts (Row.getS r "repo_name" "")
            (today - 1 - window_days) (today - 1) : Int) +
          (distinct_contributors evs (Row.getS r "repo_name" "")
            (today - 1 - window_days) (today - 1) : Int) := by
        exact_mod_cast c1
      refine ⟨?_, h6⟩
      rw [h5]
      exact decide_eq_true hcast

/-- C9 witness: with one activity row for `a/a` inside the current window
and none elsewhere, `a/a` is a current-window-only repo and `b/b` a
zero-activity repo; the per-row guarantees hold along the returned list. -/
theorem c9_metrics_rows_witness :
    List.Forall₂ (fun r o =>
      Row.getS o "repo_name" "" = Row.getS r "repo_name" "" ∧
      (star_zero_activity [⟨"a/a", 5, 3⟩] [] (Row.getS r "repo_name" "")
          7 10 →
        Row.getI o "stars_total" 0 = 0 ∧ Row.getI o "forks_total" 0 = 0 ∧
        Row.getI o "activity_delta_window" 0 = 0 ∧
        Row.getI o "contributors_delta_window" 0 = 0 ∧
        Row.getB o "has_baseline" false = false ∧
        Row.getB o "has_exact_baseline" false = false) ∧
      (star_curr_only_activity [⟨"a/a", 5, 3⟩] [] (Row.getS r "repo_name" "")
          7 10 →
        Row.getB o "has_baseline" false = true ∧
        Row.getB o "has_exact_baseline" false = false))
      [[("repo_name", Val.s "a/a")], [("repo_name", Val.s "b/b")]]
      (attach_star_fork_deltas [⟨"a/a", 5, 3⟩] []
        [[("repo_name", Val.s "a/a")], [("repo_name", Val.s "b/b")]] 7 10).1 :=
  c9_metrics_rows [⟨"a/a", 5, 3⟩] []
    [[("repo_name", Val.s "a/a")], [("repo_name", Val.s "b/b")]] 7 10
    (by decide)

theorem quotesDoubled_escQuotes : ∀ cs : List Char,
    quotesDoubled (escQuotes cs) = true
  | [] => rfl
  | c :: cs => by
    have ih := quotesDoubled_escQuotes cs
    by_cases hc : c = '\''
    · simp [escQuotes, hc, quotesDoubled, quoteClose, ih]
    · simp [escQuotes, hc, quotesDoubled, ih]

theorem scanElem_escQuotes : ∀ (v rest : List Char),
    rest.head? ≠ some '\'' →
    scanElem (escQuotes v ++ '\'' :: rest) = some (v, rest)
  | [], rest, h => by
    cases rest with
    | nil => rfl
    | cons c cs =>
      have hc : ¬c = '\'' := by
        intro hcq
        exact h (by rw [hcq]; rfl)
      simp [escQuotes, scanElem, hc]
  | a :: v, rest, h => by
    have ih := scanElem_escQuotes v rest h
    by_cases ha : a = '\''
    · simp only [escQuotes, if_pos ha, List.cons_append]
      rw [show scanElem ('\'' :: '\'' :: (escQuotes v ++ '\'' :: rest)) =
          (scanElem (escQuotes v ++ '\'' :: rest)).map
            fun p => ('\'' :: p.1, p.2) from by
        cases hev : escQuotes v ++ '\'' :: rest with
        | nil => exact absurd hev (by simp)
        | cons b bs => simp [scanElem]]
      rw [ih]
      simp [ha]
    · simp only [escQuotes, if_neg ha, List.cons_append]
      cases hev : escQuotes v ++ '\'' :: rest with
      | nil => exact absurd hev (by simp)
      | cons b bs =>
        rw [show scanElem (a :: b :: bs) =
            (scanElem (b :: bs)).map fun p => (a :: p.1, p.2) from by
          simp [scanElem, ha]]
        rw [← hev, ih]
        rfl

theorem scanElems_encBody : ∀ (vs : List (List Char)) (fuel : Nat),
    vs ≠ [] → vs.length ≤ fuel → scanElems fuel (encBody vs) = some vs
  | [], _, hne, _ => absurd rfl hne
  | [v], fuel, _, hf => by
    cases fuel with
    | zero => exact absurd hf (by simp)
    | succ f =>
      have hs := scanElem_escQuotes v [']'] (by simp)
      unfold encBody scanElems
      simp [hs]
  | v :: w :: vs, fuel, _, hf => by
    cases fuel with
    | zero => exact absurd hf (by simp)
    | succ f =>
      have ih := scanElems_encBody (w :: vs) f (by simp)
        (by simpa using Nat.lt_succ_iff.mp (by simpa using hf))
      have hs := scanElem_escQuotes v (',' :: ' ' :: encBody (w :: vs)) (by simp)
      unfold encBody scanElems
      simp [hs, ih]

theorem encBody_length_ge : ∀ vs : List (List Char),
    vs.length ≤ (encBody vs).length
  | [] => by simp [encBody]
  | [v] => by simp [encBody]
  | v :: w :: vs => by
    have ih := encBody_length_ge (w :: vs)
    simp only [encBody, List.length_cons, List.length_append] at ih ⊢
    omega

theorem bq_string_array_toList : ∀ (v : String) (vs : List String),
    (_bq_string_array (v :: vs)).toList =
      '[' :: encBody ((v :: vs).map (·.toList))
  | v, [] => by
    show ('[' :: (join_comma ["'" ++ _sql_quote_identifier v ++ "'"]).toList
        ++ [']'] : List Char) = _
    simp [join_comma, _sql_quote_identifier, encBody,
      show ∀ s t : String, (s ++ t).toList = s.toList ++ t.toList
        from fun _ _ => rfl]
  | v, w :: vs => by
    have ih := bq_string_array_toList w vs
    have hjoin : join_comma (((v :: w :: vs).map
        fun x => "'" ++ _sql_quote_identifier x ++ "'")) =
        ("'" ++ _sql_quote_identifier v ++ "'") ++ ", " ++
          join_comma ((w :: vs).map fun x => "'" ++ _sql_quote_identifier x ++ "'") := by
      simp [join_comma]
    show ('[' :: (join_comma ((v :: w :: vs).map
        fun x => "'" ++ _sql_quote_identifier x ++ "'")).toList ++ [']']
        : List Char) = _
    rw [hjoin]
    have ihlist : ('[' :: (join_comma ((w :: vs).map
        fun x => "'" ++ _sql_quote_identifier x ++ "'")).toList ++ [']']
        : List Char) = '[' :: encBody ((w :: vs).map (·.toList)) := ih
    have ihbody : ((join_comma ((w :: vs).map
        fun x => "'" ++ _sql_quote_identifier x ++ "'")).toList ++ [']']
        : List Char) = encBody ((w :: vs).map (·.toList)) := by
      injection ihlist
    show ('[' :: ((("'" ++ _sql_quote_identifier v ++ "'") ++ ", ").toList ++
        (join_comma ((w :: vs).map
          fun x => "'" ++ _sql_quote_identifier x ++ "'")).toList) ++ [']']
        : List Char) = _
    rw [List.cons_append, List.append_assoc, ihbody]
    simp [_sql_quote_identifier, encBody]

/-- C10: the generated BigQuery array literal is well-formed: every single
quote in an element is doubled by the escaper (witnessed both by the
pair-scanner `quotesDoubled` and by the literal parsing back to exactly the
input list), the empty list produces the typed empty array literal, and the
repo filter expression degenerates to the constant `FALSE` on it. -/
theorem c10_bq_array_wellformed (values : List String) (v : String) :
    quotesDoubled (escQuotes v.toList) = true ∧
    _bq_string_array [] = "CAST([] AS ARRAY<STRING>)" ∧
    _repo_filter_expr [] = "FALSE" ∧
    (values ≠ [] → parse_bq_array (_bq_string_array values) = some values) := by
  refine ⟨quotesDoubled_escQuotes v.toList, rfl, rfl, ?_⟩
  intro hne
  cases values with
  | nil => exact absurd rfl hne
  | cons w vs =>
    unfold parse_bq_array
    rw [bq_string_array_toList w vs]
    show (scanElems (encBody ((w :: vs).map (·.toList))).length
        (encBody ((w :: vs).map (·.toList)))).map
        (·.map fun cs => String.mk cs) = some (w :: vs)
    rw [scanElems_encBody ((w :: vs).map (·.toList)) _ (by simp)
      (encBody_length_ge _)]
    show some (((w :: vs).map (·.toList)).map fun cs => String.mk cs) =
      some (w :: vs)
    congr 1
    rw [List.map_map]
    exact (List.map_congr_left fun s _ => rfl).trans (List.map_id _)

/-- C10 witness: a value containing a single quote round-trips through the
generated literal. -/
theorem c10_bq_array_wellformed_witness :
    (["a\x27b", "c"] : List String) ≠ [] ∧
    parse_bq_array (_bq_string_array ["a\x27b", "c"]) =
      some ["a\x27b", "c"] :=
  ⟨by decide, (c10_bq_array_wellformed ["a\x27b", "c"] "x").2.2.2 (by decide)⟩
